import Mathlib

/-!
Shallow embedding of the anomaly-detection core of the fraudhacker
repository (src/anomaly_tools.py, with the configuration constants of
src/fh_config.py), together with theorems settling the frozen claims
about it.

Numeric values of the dataframe are modelled as rationals; a pandas
DataFrame is modelled as its list of rows (records) plus the two columns
the detectors add (`outlier_metric`, `cluster_label`), kept as optional
lists so that a missing column is representable.  Fallible operations
(the missing-metric warning-and-return-None path, numpy percentile
errors) return `Option`.
-/

namespace Fraudhacker

/-- A row of the queried dataframe: the entity identifier (`npi`), the
metadata fields read by `AnomalyDetector.get_most_frequent`, and the
numeric columns accessed by name (`d_f[reg_var].values`). -/
structure Record where
  npi : Nat
  last_name : String
  street1 : String
  street2 : String
  zip : String
  state : String
  vals : String → ℚ

instance : Inhabited Record :=
  ⟨⟨0, "", "", "", "", "", fun _ => 0⟩⟩

/-- A pandas dataframe as used by anomaly_tools: its rows, plus the
`outlier_metric` and `cluster_label` columns, present or absent. -/
structure DataFrame where
  records : List Record
  outlier_metric : Option (List ℚ) := none
  cluster_label : Option (List Nat) := none

/-- Configured regression variables, from src/fh_config.py. -/
def regression_vars : List String :=
  ["line_srvc_cnt", "bene_unique_cnt", "bene_day_srvc_cnt",
   "average_medicare_allowed_amt", "average_submitted_chrg_amt"]

/-- Configured response variable, from src/fh_config.py. -/
def response_var : String := "average_medicare_payment_amt"

/-- The values of one named numeric column, `self.d_f[reg_var].values`. -/
def column (df : DataFrame) (v : String) : List ℚ :=
  df.records.map (fun r => r.vals v)

/-- Python `list(zip(*data_list))`: transpose a list of columns into a
list of rows, truncating at the shortest column (and producing no rows
at all when there are no columns, as `zip()` does). -/
def pyZip (cols : List (List ℚ)) : List (List ℚ) :=
  if h : cols.isEmpty || cols.any List.isEmpty then []
  else
    cols.map (fun col => col.headD 0) :: pyZip (cols.map List.tail)
termination_by (cols.headD []).length
decreasing_by
  simp only [Bool.or_eq_true, List.isEmpty_iff, List.any_eq_true, not_or,
    not_exists, not_and] at h
  obtain ⟨h1, h2⟩ := h
  cases cols with
  | nil => exact absurd rfl h1
  | cons c rest =>
    have hc : c ≠ [] := h2 c (List.mem_cons_self c rest)
    cases c with
    | nil => exact absurd rfl hc
    | cons a as => simp [List.headD]

/-- `AnomalyDetector.build_data_matrix`: one column per regression
variable, in order, then the response column when `use_response_var`,
transposed into rows by `zip`. -/
def build_data_matrix (reg_vars : List String) (resp_var : String)
    (df : DataFrame) (use_response_var : Bool) : List (List ℚ) :=
  let data_list := reg_vars.map (column df)
  let data_list :=
    if use_response_var then data_list ++ [column df resp_var] else data_list
  pyZip data_list

/-- One row of the aggregated report: the entry
`suspect_dict[npi]` built by `AnomalyDetector.get_most_frequent`
(metadata of the entity plus its running outlier count). -/
structure EntitySummary where
  last_name : String
  street1 : String
  street2 : String
  zip : String
  state : String
  outlier_count : Nat
  deriving DecidableEq, Repr

/-- The summary created for the first record seen for an entity, with a
given outlier count. -/
def mkSummary (r : Record) (c : Nat) : EntitySummary :=
  ⟨r.last_name, r.street1, r.street2, r.zip, r.state, c⟩

/-- `suspect_dict[npi]["outlier_count"] += 1` on the entry with the
given key. -/
def bumpCount (e : Nat) (p : Nat × EntitySummary) : Nat × EntitySummary :=
  if p.1 = e then (p.1, { p.2 with outlier_count := p.2.outlier_count + 1 })
  else p

/-- One iteration of the `for row_tuple in self.d_f.iterrows()` loop of
`AnomalyDetector.get_most_frequent`: create the entity entry (count 0,
metadata of this first record) when the key is new, then increment the
entity count when this row's metric exceeds the threshold. -/
def updateSuspects (threshold : ℚ) (acc : List (Nat × EntitySummary))
    (row : Record × ℚ) : List (Nat × EntitySummary) :=
  let acc1 :=
    if acc.any (fun p => p.1 == row.1.npi) then acc
    else acc ++ [(row.1.npi, mkSummary row.1 0)]
  if row.2 > threshold then acc1.map (bumpCount row.1.npi) else acc1

/-- The whole loop of `AnomalyDetector.get_most_frequent`, building the
insertion-ordered `suspect_dict` as an association list. -/
def buildSuspectDict (threshold : ℚ) (acc : List (Nat × EntitySummary)) :
    List (Record × ℚ) → List (Nat × EntitySummary)
  | [] => acc
  | row :: rest => buildSuspectDict threshold (updateSuspects threshold acc row) rest

/-- Insert an element into a sorted list, before the first element it
compares `le` to (so insertion sort built on it is stable). -/
def insertLe (le : α → α → Bool) (x : α) : List α → List α
  | [] => [x]
  | y :: ys => if le x y then x :: y :: ys else y :: insertLe le x ys

/-- Stable insertion sort with respect to a boolean comparison. -/
def isortBy (le : α → α → Bool) : List α → List α
  | [] => []
  | x :: xs => insertLe le x (isortBy le xs)

/-- Ascending comparison on the `outlier_count` column. -/
def countLe (p q : Nat × EntitySummary) : Bool :=
  p.2.outlier_count ≤ q.2.outlier_count

/-- `suspect_d_f.sort_values(by="outlier_count", ascending=False)`:
pandas argsorts the column ascending and then reverses the indexer;
with the sort modelled as stable, ties come out in reversed
first-insertion order. -/
def sortByCountDesc (d : List (Nat × EntitySummary)) :
    List (Nat × EntitySummary) :=
  (isortBy countLe d).reverse

/-- `AnomalyDetector.get_most_frequent`: `none` (a printed warning and a
`None` result in the Python) when the `outlier_metric` column is
missing; otherwise the sorted suspect table.  Records are paired with
their metrics positionally, as `iterrows` does. -/
def get_most_frequent (df : DataFrame) (threshold : ℚ) :
    Option (List (Nat × EntitySummary)) :=
  match df.outlier_metric with
  | none => none
  | some ms => some (sortByCountDesc (buildSuspectDict threshold [] (df.records.zip ms)))

/-- `AnomalyDetector.get_n_most_frequent`: first `top_n_return` rows. -/
def get_n_most_frequent (sorted_df : List (Nat × EntitySummary))
    (top_n_return : Nat) : List (Nat × EntitySummary) :=
  sorted_df.take top_n_return

/-- Result of the external sklearn k-means fit on the scaled matrix, as
`KMeansAnomalyDetector.compute_centroid_distances` consumes it: the
per-row cluster labels (`kmeans_result.labels_`) and the row-by-centroid
distance matrix returned by `kmeans_result.transform(self.scaled_dm)`
(entry `(i, j)` is the Euclidean distance of row `i` to centroid `j`). -/
structure KMeansFit where
  labels : List Nat
  transformed : List (List ℚ)

/-- `KMeansAnomalyDetector.assign_clusters`: write the labels column. -/
def assign_clusters (df : DataFrame) (labels : List Nat) : DataFrame :=
  { df with cluster_label := some labels }

/-- `KMeansAnomalyDetector.compute_centroid_distances` after the
external fit: assign the labels column (the source does it twice), then
set `outlier_metric` to `[transformed[:, label][idx] for idx, label in
enumerate(self.d_f['cluster_label'])]`. -/
def compute_centroid_distances (df : DataFrame) (fit : KMeansFit) : DataFrame :=
  let df1 := assign_clusters df fit.labels
  let df2 := assign_clusters df1 fit.labels
  { df2 with
    outlier_metric := some ((df2.cluster_label.getD []).enum.map
      (fun p => (fit.transformed.getD p.1 []).getD p.2 0)) }

/-- Result of the external HDBSCAN fit, as
`HDBAnomalyDetector.get_outlier_scores` consumes it: the per-row
`outlier_scores_` array. -/
structure HDBFit where
  outlier_scores : List ℚ

/-- `HDBAnomalyDetector.get_outlier_scores` after the external fit: set
`outlier_metric` to `[outlier_scores[idx] for idx, pt in
enumerate(self.d_f['npi'])]`. -/
def get_outlier_scores (df : DataFrame) (fit : HDBFit) : DataFrame :=
  { df with
    outlier_metric := some ((df.records.map Record.npi).enum.map
      (fun p => fit.outlier_scores.getD p.1 0)) }

/-- `np.percentile(xs, q)` with the default linear interpolation:
`none` on an empty array or a rank outside `[0, 100]` (numpy raises in
both cases), otherwise the order statistic at virtual position
`q / 100 * (n - 1)` of the ascending sort, linearly interpolated. -/
def npPercentile (xs : List ℚ) (q : ℚ) : Option ℚ :=
  if xs.isEmpty then none
  else if q < 0 ∨ 100 < q then none
  else
    let sorted := isortBy (fun a b => decide (a ≤ b)) xs
    let pos := q * ((sorted.length : ℚ) - 1) / 100
    let i := pos.floor.toNat
    let lo := sorted.getD i 0
    let hi := sorted.getD (i + 1) lo
    some (lo + (pos - (i : ℚ)) * (hi - lo))

/-- `KMeansAnomalyDetector.get_most_frequent`: reads the
`outlier_metric` column (`none` models the KeyError when it is absent),
unconditionally recomputes `threshold` as the `(100 - percent)`-th
percentile of the metrics — the `threshold` argument is discarded — and
delegates to the parent aggregation. -/
def kmeans_get_most_frequent (df : DataFrame) (threshold : Option ℚ)
    (percent : ℚ) : Option (List (Nat × EntitySummary)) :=
  match df.outlier_metric with
  | none => none
  | some ms =>
    match npPercentile ms (100 - percent) with
    | none => none
    | some t => get_most_frequent df t

/-- `HDBAnomalyDetector.get_most_frequent`: same shape as the k-means
version (only the `percent` default differs at the call sites), with the
same unconditional percentile recomputation. -/
def hdb_get_most_frequent (df : DataFrame) (threshold : Option ℚ)
    (percent : ℚ) : Option (List (Nat × EntitySummary)) :=
  match df.outlier_metric with
  | none => none
  | some ms =>
    match npPercentile ms (100 - percent) with
    | some t => get_most_frequent df t
    | none => none

/-- The number of rows belonging to entity `e` whose metric strictly
exceeds the threshold. -/
def matchCount (threshold : ℚ) (e : Nat) (rows : List (Record × ℚ)) : Nat :=
  (rows.filter (fun row => row.1.npi == e && decide (row.2 > threshold))).length

/-! Concrete example data used by witnesses and counterexamples. -/

/-- An example record for entity 1. -/
def exR1 : Record :=
  { npi := 1, last_name := "A", street1 := "s1", street2 := "s2",
    zip := "z", state := "CA", vals := fun _ => 1 }

/-- An example record for entity 2. -/
def exR2 : Record :=
  { npi := 2, last_name := "B", street1 := "t1", street2 := "t2",
    zip := "y", state := "NY", vals := fun _ => 2 }

/-- A dataframe with no `outlier_metric` column. -/
def exDFnoMetric : DataFrame := { records := [exR1] }

/-- Two records of the same entity, metrics 5 and 20. -/
def exDF3 : DataFrame :=
  { records := [exR1, exR1], outlier_metric := some [5, 20] }

/-- One record with metric 1. -/
def exDF8 : DataFrame := { records := [exR1], outlier_metric := some [1] }

/-- Two records of distinct entities, both with metric 0. -/
def exDF7 : DataFrame :=
  { records := [exR1, exR2], outlier_metric := some [0, 0] }

/-- An example k-means fit for a two-row dataframe. -/
def exFit : KMeansFit := { labels := [1, 0], transformed := [[3, 4], [7, 9]] }

/-- C4: when no scorer has attached the outlier metric, the frequency
aggregation `AnomalyDetector.get_most_frequent` yields the no-value
error outcome (the Python prints a warning and returns `None`, modelled
as `none`) rather than succeeding with a table. -/
theorem aggregation_without_metric_errors (df : DataFrame) (threshold : ℚ)
    (h : df.outlier_metric = none) : get_most_frequent df threshold = none := by
  unfold get_most_frequent
  rw [h]

/-- Witness for `aggregation_without_metric_errors` at a concrete
dataframe. -/
theorem aggregation_without_metric_errors_witness :
    exDFnoMetric.outlier_metric = none ∧
      get_most_frequent exDFnoMetric 0 = none :=
  ⟨rfl, aggregation_without_metric_errors exDFnoMetric 0 rfl⟩

/-- C9: the two scoring operations only write the `outlier_metric` and
`cluster_label` columns; the records themselves — every pre-existing
column, and the number and order of rows — are unchanged. -/
theorem scorers_only_add_columns (df : DataFrame) (fitK : KMeansFit)
    (fitH : HDBFit) :
    (compute_centroid_distances df fitK).records = df.records ∧
      (get_outlier_scores df fitH).records = df.records :=
  ⟨rfl, rfl⟩

/-- C2: the centroid-distance scorer gives row `i` the outlier metric
`transformed[i][label i]` — the entry of the all-centroid-distance
matrix in the column of the row's own assigned label, never a different
centroid's column — and produces one metric per labelled row. -/
theorem centroid_distance_own_label (df : DataFrame) (fit : KMeansFit)
    (i : Nat) (hi : i < fit.labels.length) (hti : i < fit.transformed.length)
    (hli : fit.labels[i] < fit.transformed[i].length) :
    ((compute_centroid_distances df fit).outlier_metric.getD []).length =
        fit.labels.length ∧
      ((compute_centroid_distances df fit).outlier_metric.getD []).getD i 0 =
        fit.transformed[i][fit.labels[i]] := by
  unfold compute_centroid_distances assign_clusters
  simp only [Option.getD_some]
  constructor
  · simp
  · simp only [List.getD_eq_getD_get?, List.get?_eq_getElem?, List.getElem?_map,
      List.getElem?_enum, List.getElem?_eq_getElem hi]
    simp only [Option.map_some', Option.getD_some, List.getElem?_eq_getElem hti,
      List.getElem?_eq_getElem hli]

/-- Witness for `centroid_distance_own_label`: in the example fit, row 0
has label 1 and receives distance `transformed[0][1] = 4`. -/
theorem centroid_distance_own_label_witness :
    (0 < exFit.labels.length ∧ 0 < exFit.transformed.length) ∧
      ((compute_centroid_distances exDF7 exFit).outlier_metric.getD
          []).length = exFit.labels.length ∧
      ((compute_centroid_distances exDF7 exFit).outlier_metric.getD
          []).getD 0 0 = 4 := by
  refine ⟨⟨by decide, by decide⟩, ?_, ?_⟩
  · exact (centroid_distance_own_label exDF7 exFit 0 (by decide) (by decide)
      (by decide)).1
  · have h := (centroid_distance_own_label exDF7 exFit 0 (by decide)
      (by decide) (by decide)).2
    rw [h]
    decide

unseal Rat.add Rat.sub Rat.mul Rat.inv in
/-- C3 (divergence evaluation): with metrics `[5, 20]`, an explicit
threshold of 100 and `percent = 10`, both report operations count the
record with metric 20 as an outlier: the supplied threshold is
discarded and the 90th percentile (18.5) is used instead.  Had the
explicit threshold been honoured, the count would be 0. -/
theorem threshold_argument_discarded :
    kmeans_get_most_frequent exDF3 (some 100) 10 =
        some [(1, mkSummary exR1 1)] ∧
      hdb_get_most_frequent exDF3 (some 100) 10 =
        some [(1, mkSummary exR1 1)] := by
  constructor <;> decide

unseal Rat.add Rat.sub Rat.mul Rat.inv in
/-- C8 (counterexample): `percent = 0` lies outside `(0, 100]`, yet both
report operations succeed with a table instead of raising — the
resulting rank `100 - 0` is accepted by `np.percentile`. -/
theorem percent_zero_accepted :
    kmeans_get_most_frequent exDF8 none 0 = some [(1, mkSummary exR1 0)] ∧
      hdb_get_most_frequent exDF8 none 0 = some [(1, mkSummary exR1 0)] := by
  constructor <;> decide

/-- C8 (amended): for every `percent` with `percent < 0` or
`percent > 100`, the percentile rank `100 - percent` falls outside
`[0, 100]` and the report operations fail with an error (numpy's
`ValueError`, modelled as `none`). -/
theorem percent_out_of_range_errors (df : DataFrame) (threshold : Option ℚ)
    (percent : ℚ) (h : percent < 0 ∨ 100 < percent) :
    kmeans_get_most_frequent df threshold percent = none ∧
      hdb_get_most_frequent df threshold percent = none := by
  have hq : (100 : ℚ) - percent < 0 ∨ 100 < 100 - percent := by
    rcases h with h | h
    · right; linarith
    · left; linarith
  have hp : ∀ ms : List ℚ, npPercentile ms (100 - percent) = none := by
    intro ms
    unfold npPercentile
    by_cases he : ms.isEmpty
    · rw [if_pos he]
    · rw [if_neg he, if_pos hq]
  constructor
  · unfold kmeans_get_most_frequent
    cases hm : df.outlier_metric with
    | none => rfl
    | some ms => simp only [hp ms]
  · unfold hdb_get_most_frequent
    cases hm : df.outlier_metric with
    | none => rfl
    | some ms => simp only [hp ms]

/-- Witness for `percent_out_of_range_errors` at `percent = 150`, the
spec's own example value. -/
theorem percent_out_of_range_errors_witness :
    ((150 : ℚ) < 0 ∨ 100 < (150 : ℚ)) ∧
      kmeans_get_most_frequent exDF8 none 150 = none ∧
      hdb_get_most_frequent exDF8 none 150 = none := by
  have h : (150 : ℚ) < 0 ∨ 100 < (150 : ℚ) := Or.inr (by norm_num)
  exact ⟨h, (percent_out_of_range_errors exDF8 none 150 h).1,
    (percent_out_of_range_errors exDF8 none 150 h).2⟩

/-- A column extracted from the dataframe has one value per record. -/
lemma column_length (df : DataFrame) (v : String) :
    (column df v).length = df.records.length :=
  List.length_map _ _

/-- The `i`-th value of an extracted column is the field of record `i`. -/
lemma column_getD (df : DataFrame) (v : String) (i : Nat)
    (hi : i < df.records.length) :
    (column df v).getD i 0 = (df.records[i]).vals v := by
  unfold column
  rw [List.getD_eq_getElem _ _ (by simpa using hi)]
  exact List.getElem_map _

/-- When every column has length `n` and there is at least one column,
`pyZip` produces `n` rows, the `i`-th row reading off position `i` of
every column in order. -/
lemma pyZip_spec : ∀ (n : Nat) (cols : List (List ℚ)), cols ≠ [] →
    (∀ c ∈ cols, c.length = n) →
    (pyZip cols).length = n ∧
      ∀ i, i < n → (pyZip cols).getD i [] = cols.map (fun c => c.getD i 0) := by
  intro n
  induction n with
  | zero =>
    intro cols hne hlen
    have hempty : (cols.isEmpty || cols.any List.isEmpty) = true := by
      cases cols with
      | nil => rfl
      | cons c rest =>
        have hc : c.length = 0 := hlen c (List.mem_cons_self c rest)
        have hc' : c = [] := List.length_eq_zero.mp hc
        subst hc'
        simp
    rw [pyZip, dif_pos hempty]
    exact ⟨rfl, fun i hi => absurd hi (Nat.not_lt_zero i)⟩
  | succ n ih =>
    intro cols hne hlen
    have hnonempty : ∀ c ∈ cols, c ≠ [] := by
      intro c hc hcnil
      have hl := hlen c hc
      rw [hcnil] at hl
      simp at hl
    have hcond : ¬ (cols.isEmpty || cols.any List.isEmpty) = true := by
      simp only [Bool.or_eq_true, List.isEmpty_iff, List.any_eq_true, not_or,
        not_exists, not_and]
      exact ⟨hne, hnonempty⟩
    rw [pyZip, dif_neg hcond]
    have htne : cols.map List.tail ≠ [] := by
      cases cols with
      | nil => exact absurd rfl hne
      | cons c rest => simp
    have htl : ∀ c ∈ cols.map List.tail, c.length = n := by
      intro c' hc'
      obtain ⟨c, hc, rfl⟩ := List.mem_map.mp hc'
      have := hlen c hc
      simp [List.length_tail, this]
    obtain ⟨ihlen, ihget⟩ := ih (cols.map List.tail) htne htl
    constructor
    · simp [ihlen]
    · intro i hi
      cases i with
      | zero =>
        simp only [List.getD_cons_zero]
        apply List.map_congr_left
        intro c hc
        cases c with
        | nil => exact absurd rfl (hnonempty _ hc)
        | cons a as => rfl
      | succ i =>
        have hi' : i < n := Nat.lt_of_succ_lt_succ hi
        simp only [List.getD_cons_succ]
        rw [ihget i hi', List.map_map]
        apply List.map_congr_left
        intro c hc
        cases c with
        | nil => exact absurd rfl (hnonempty _ hc)
        | cons a as => rfl

/-- C5: with the configured fields, `build_data_matrix` returns one row
per input record, in input order; row `i` consists of record `i`'s
regression fields in configured order, followed by its response field
exactly when `use_response_var` is set. -/
theorem build_matrix_rows (df : DataFrame) (use_response_var : Bool)
    (i : Nat) (hi : i < df.records.length) :
    (build_data_matrix regression_vars response_var df
        use_response_var).length = df.records.length ∧
      (build_data_matrix regression_vars response_var df
          use_response_var).getD i [] =
        regression_vars.map (fun v => (df.records[i]).vals v) ++
          (if use_response_var then [(df.records[i]).vals response_var]
           else []) := by
  cases use_response_var with
  | false =>
    have hlens : ∀ c ∈ regression_vars.map (column df),
        c.length = df.records.length := by
      intro c hc
      obtain ⟨v, hv, rfl⟩ := List.mem_map.mp hc
      exact column_length df v
    obtain ⟨hlen, hget⟩ := pyZip_spec df.records.length
      (regression_vars.map (column df)) (by simp [regression_vars]) hlens
    unfold build_data_matrix
    simp only [if_neg (by simp : ¬ (false : Bool) = true)]
    refine ⟨hlen, ?_⟩
    rw [hget i hi, List.map_map, List.append_nil]
    apply List.map_congr_left
    intro v hv
    exact column_getD df v i hi
  | true =>
    have hlens : ∀ c ∈ regression_vars.map (column df) ++
        [column df response_var], c.length = df.records.length := by
      intro c hc
      rcases List.mem_append.mp hc with hc | hc
      · obtain ⟨v, hv, rfl⟩ := List.mem_map.mp hc
        exact column_length df v
      · rw [List.mem_singleton.mp hc]
        exact column_length df response_var
    obtain ⟨hlen, hget⟩ := pyZip_spec df.records.length
      (regression_vars.map (column df) ++ [column df response_var])
      (by simp) hlens
    unfold build_data_matrix
    simp only [if_true]
    refine ⟨hlen, ?_⟩
    rw [hget i hi, List.map_append, List.map_map]
    congr 1
    · apply List.map_congr_left
      intro v hv
      exact column_getD df v i hi
    · simp only [List.map_cons, List.map_nil]
      rw [column_getD df response_var i hi]

/-- Witness for `build_matrix_rows` at a two-record dataframe with the
response variable included: row 0 reads off record 0's fields. -/
theorem build_matrix_rows_witness :
    0 < exDF7.records.length ∧
      (build_data_matrix regression_vars response_var exDF7 true).length =
        exDF7.records.length ∧
      (build_data_matrix regression_vars response_var exDF7 true).getD 0 [] =
        regression_vars.map (fun v => (exDF7.records[0]).vals v) ++
          [(exDF7.records[0]).vals response_var] := by
  refine ⟨by decide, (build_matrix_rows exDF7 true 0 (by decide)).1, ?_⟩
  have h := (build_matrix_rows exDF7 true 0 (by decide)).2
  simpa using h

lemma bumpCount_fst (e : Nat) (p : Nat × EntitySummary) :
    (bumpCount e p).1 = p.1 := by
  unfold bumpCount
  split <;> rfl

lemma bumpCount_ne (e : Nat) (p : Nat × EntitySummary) (h : p.1 ≠ e) :
    bumpCount e p = p := by
  unfold bumpCount
  rw [if_neg h]

lemma bumpCount_eq (e : Nat) (p : Nat × EntitySummary) (h : p.1 = e) :
    bumpCount e p =
      (p.1, { p.2 with outlier_count := p.2.outlier_count + 1 }) := by
  unfold bumpCount
  rw [if_pos h]

lemma find?_map_bumpCount (l : List (Nat × EntitySummary)) (e k : Nat) :
    (l.map (bumpCount e)).find? (fun p => p.1 == k) =
      (l.find? (fun p => p.1 == k)).map (bumpCount e) := by
  rw [List.find?_map]
  have hpred : ((fun p : Nat × EntitySummary => p.1 == k) ∘ bumpCount e) =
      fun p => p.1 == k := by
    funext p
    simp [Function.comp, bumpCount_fst]
  rw [hpred]

lemma key_eq_of_find? {acc : List (Nat × EntitySummary)} {k : Nat}
    {p : Nat × EntitySummary}
    (hf : acc.find? (fun q => q.1 == k) = some p) : p.1 = k := by
  have h := List.find?_some hf
  simpa using h

lemma find?_updateSuspects_ne (t : ℚ) (acc : List (Nat × EntitySummary))
    (row : Record × ℚ) (e : Nat) (hne : row.1.npi ≠ e) :
    (updateSuspects t acc row).find? (fun p => p.1 == e) =
      acc.find? (fun p => p.1 == e) := by
  have hmap : ∀ l : List (Nat × EntitySummary),
      l.find? (fun p => p.1 == e) = acc.find? (fun p => p.1 == e) →
      (l.map (bumpCount row.1.npi)).find? (fun p => p.1 == e) =
        acc.find? (fun p => p.1 == e) := by
    intro l hl
    rw [find?_map_bumpCount, hl]
    cases hf : acc.find? (fun p => p.1 == e) with
    | none => rfl
    | some p =>
      have hp : p.1 = e := key_eq_of_find? hf
      rw [Option.map_some', bumpCount_ne _ _ (by rw [hp]; exact fun h => hne h.symm)]
  have happ : (acc ++ [(row.1.npi, mkSummary row.1 0)]).find?
      (fun p => p.1 == e) = acc.find? (fun p => p.1 == e) := by
    rw [List.find?_append]
    have hsing : ([(row.1.npi, mkSummary row.1 0)].find? (fun p => p.1 == e)) = none := by
      simp [hne]
    rw [hsing, Option.or_none]
  unfold updateSuspects
  by_cases hany : acc.any (fun p => p.1 == row.1.npi)
  · simp only [if_pos hany]
    split
    · exact hmap acc rfl
    · rfl
  · simp only [if_neg hany]
    split
    · exact hmap _ happ
    · exact happ

lemma any_key_eq_isSome_find? (acc : List (Nat × EntitySummary)) (k : Nat) :
    acc.any (fun p => p.1 == k) = (acc.find? (fun p => p.1 == k)).isSome := by
  rw [Bool.eq_iff_iff, List.any_eq_true, Option.isSome_iff_exists]
  constructor
  · rintro ⟨p, hp, hpe⟩
    cases hf : acc.find? (fun p => p.1 == k) with
    | none =>
      rw [List.find?_eq_none] at hf
      exact absurd hpe (hf p hp)
    | some q => exact ⟨q, rfl⟩
  · rintro ⟨p, hp⟩
    refine ⟨p, List.mem_of_find?_eq_some hp, ?_⟩
    have h := List.find?_some hp
    simpa using h

lemma find?_updateSuspects_self (t : ℚ) (acc : List (Nat × EntitySummary))
    (row : Record × ℚ) :
    (updateSuspects t acc row).find? (fun p => p.1 == row.1.npi) =
      some (match acc.find? (fun p => p.1 == row.1.npi) with
        | some p =>
          if row.2 > t then
            (p.1, { p.2 with outlier_count := p.2.outlier_count + 1 })
          else p
        | none =>
          if row.2 > t then (row.1.npi, mkSummary row.1 1)
          else (row.1.npi, mkSummary row.1 0)) := by
  unfold updateSuspects
  rw [any_key_eq_isSome_find?]
  cases hf : acc.find? (fun p => p.1 == row.1.npi) with
  | some p =>
    have hkey : p.1 = row.1.npi := key_eq_of_find? hf
    simp only [Option.isSome_some, if_true]
    split
    · rw [find?_map_bumpCount, hf, Option.map_some',
        bumpCount_eq row.1.npi p hkey]
    · rw [hf]
  | none =>
    simp only [Option.isSome_none, Bool.false_eq_true, if_false]
    have happ : (acc ++ [(row.1.npi, mkSummary row.1 0)]).find?
        (fun p => p.1 == row.1.npi) = some (row.1.npi, mkSummary row.1 0) := by
      rw [List.find?_append, hf, Option.none_or]
      simp
    split
    · rw [find?_map_bumpCount, happ, Option.map_some',
        bumpCount_eq row.1.npi (row.1.npi, mkSummary row.1 0) rfl]
      rfl
    · rw [happ]

/-- Master lemma: looking up entity `e` after the whole aggregation
loop.  An entry already in the accumulator gains `matchCount` over the
new rows; otherwise the entry is created from the first row of entity
`e`, with count `matchCount`. -/
lemma find?_buildSuspectDict (t : ℚ) :
    ∀ (rows : List (Record × ℚ)) (acc : List (Nat × EntitySummary)) (e : Nat),
    (buildSuspectDict t acc rows).find? (fun p => p.1 == e) =
      match acc.find? (fun p => p.1 == e) with
      | some p =>
        some (p.1, { p.2 with outlier_count := p.2.outlier_count + matchCount t e rows })
      | none =>
        (rows.find? (fun row => row.1.npi == e)).map
          (fun row => (e, mkSummary row.1 (matchCount t e rows))) := by
  intro rows
  induction rows with
  | nil =>
    intro acc e
    show acc.find? (fun p => p.1 == e) = _
    cases hf : acc.find? (fun p => p.1 == e) with
    | none => rfl
    | some p => simp [matchCount]
  | cons row rest ih =>
    intro acc e
    show (buildSuspectDict t (updateSuspects t acc row) rest).find? _ = _
    rw [ih]
    by_cases he : row.1.npi = e
    · subst he
      rw [find?_updateSuspects_self]
      have hfr : (row :: rest).find? (fun r => r.1.npi == row.1.npi) =
          some row := List.find?_cons_of_pos _ (by simp)
      rw [hfr]
      by_cases hgt : row.2 > t
      · have hmc : matchCount t row.1.npi (row :: rest) =
            matchCount t row.1.npi rest + 1 := by
          unfold matchCount
          rw [List.filter_cons]
          simp [hgt]
        rw [hmc]
        cases hf : acc.find? (fun p => p.1 == row.1.npi) with
        | some p =>
          simp only [if_pos hgt, bumpCount_fst]
          have harith : p.2.outlier_count + 1 + matchCount t row.1.npi rest =
              p.2.outlier_count + (matchCount t row.1.npi rest + 1) := by omega
          simp [harith]
        | none =>
          simp only [if_pos hgt, Option.map_some']
          have harith : 1 + matchCount t row.1.npi rest =
              matchCount t row.1.npi rest + 1 := by omega
          simp [mkSummary, harith]
      · have hmc : matchCount t row.1.npi (row :: rest) =
            matchCount t row.1.npi rest := by
          unfold matchCount
          rw [List.filter_cons]
          simp [hgt]
        rw [hmc]
        cases hf : acc.find? (fun p => p.1 == row.1.npi) with
        | some p => simp only [if_neg hgt]
        | none =>
          simp only [if_neg hgt, Option.map_some']
          simp [mkSummary]
    · rw [find?_updateSuspects_ne t acc row e he]
      have hmc : matchCount t e (row :: rest) = matchCount t e rest := by
        unfold matchCount
        rw [List.filter_cons]
        have hb : (row.1.npi == e) = false := by simp [he]
        simp [hb]
      have hfr : (row :: rest).find? (fun r => r.1.npi == e) =
          rest.find? (fun r => r.1.npi == e) :=
        List.find?_cons_of_neg _ (by simp [he])
      rw [hmc, hfr]

lemma keys_map_bumpCount (l : List (Nat × EntitySummary)) (e : Nat) :
    (l.map (bumpCount e)).map Prod.fst = l.map Prod.fst := by
  rw [List.map_map]
  apply List.map_congr_left
  intro p hp
  exact bumpCount_fst e p

lemma keys_updateSuspects (t : ℚ) (acc : List (Nat × EntitySummary))
    (row : Record × ℚ) :
    (updateSuspects t acc row).map Prod.fst =
      if acc.any (fun p => p.1 == row.1.npi) then acc.map Prod.fst
      else acc.map Prod.fst ++ [row.1.npi] := by
  unfold updateSuspects
  by_cases hany : acc.any (fun p => p.1 == row.1.npi)
  · simp only [if_pos hany]
    split
    · exact keys_map_bumpCount acc row.1.npi
    · rfl
  · simp only [if_neg hany]
    split
    · rw [keys_map_bumpCount]
      simp
    · simp

lemma nodup_keys_updateSuspects (t : ℚ) (acc : List (Nat × EntitySummary))
    (row : Record × ℚ) (h : (acc.map Prod.fst).Nodup) :
    ((updateSuspects t acc row).map Prod.fst).Nodup := by
  rw [keys_updateSuspects]
  by_cases hany : acc.any (fun p => p.1 == row.1.npi)
  · rwa [if_pos hany]
  · rw [if_neg hany]
    have hmem : row.1.npi ∉ acc.map Prod.fst := by
      intro hm
      obtain ⟨p, hp, hpk⟩ := List.mem_map.mp hm
      apply hany
      rw [List.any_eq_true]
      exact ⟨p, hp, by simp [hpk]⟩
    rw [List.nodup_append]
    exact ⟨h, List.nodup_singleton _, fun a ha hb => by
      rw [List.mem_singleton] at hb
      subst hb
      exact hmem ha⟩

lemma nodup_keys_buildSuspectDict (t : ℚ) :
    ∀ (rows : List (Record × ℚ)) (acc : List (Nat × EntitySummary)),
    (acc.map Prod.fst).Nodup →
    ((buildSuspectDict t acc rows).map Prod.fst).Nodup := by
  intro rows
  induction rows with
  | nil => intro acc h; exact h
  | cons row rest ih =>
    intro acc h
    exact ih _ (nodup_keys_updateSuspects t acc row h)

lemma mem_iff_find?_of_nodup :
    ∀ (d : List (Nat × EntitySummary)), (d.map Prod.fst).Nodup →
    ∀ (e : Nat) (s : EntitySummary),
    ((e, s) ∈ d ↔ d.find? (fun p => p.1 == e) = some (e, s)) := by
  intro d
  induction d with
  | nil => intro _ e s; simp
  | cons q rest ih =>
    intro hnd e s
    rw [List.map_cons, List.nodup_cons] at hnd
    obtain ⟨hq, hrest⟩ := hnd
    constructor
    · intro hmem
      rcases List.mem_cons.mp hmem with heq | hmem'
      · rw [← heq]
        exact List.find?_cons_of_pos _ (by simp)
      · have he : e ∈ rest.map Prod.fst :=
          List.mem_map.mpr ⟨(e, s), hmem', rfl⟩
        have hqe : q.1 ≠ e := fun h => hq (h ▸ he)
        rw [List.find?_cons_of_neg _ (by simp [hqe])]
        exact (ih hrest e s).mp hmem'
    · intro hf
      exact List.mem_of_find?_eq_some hf

lemma perm_insertLe (le : α → α → Bool) (x : α) :
    ∀ l : List α, List.Perm (insertLe le x l) (x :: l) := by
  intro l
  induction l with
  | nil => exact List.Perm.refl _
  | cons y ys ih =>
    unfold insertLe
    split
    · exact List.Perm.refl _
    · exact (ih.cons y).trans (List.Perm.swap x y ys)

lemma perm_isortBy (le : α → α → Bool) :
    ∀ l : List α, List.Perm (isortBy le l) l := by
  intro l
  induction l with
  | nil => exact List.Perm.refl _
  | cons x xs ih =>
    exact (perm_insertLe le x (isortBy le xs)).trans (ih.cons x)

lemma perm_sortByCountDesc (d : List (Nat × EntitySummary)) :
    List.Perm (sortByCountDesc d) d :=
  (List.reverse_perm _).trans (perm_isortBy countLe d)

lemma sorted_insertLe (x : Nat × EntitySummary) :
    ∀ l : List (Nat × EntitySummary),
    l.Sorted (fun a b => a.2.outlier_count ≤ b.2.outlier_count) →
    (insertLe countLe x l).Sorted
      (fun a b => a.2.outlier_count ≤ b.2.outlier_count) := by
  intro l
  induction l with
  | nil =>
    intro _
    simp [insertLe]
  | cons y ys ih =>
    intro hs
    rw [List.sorted_cons] at hs
    obtain ⟨hy, hys⟩ := hs
    unfold insertLe
    split
    case isTrue h =>
      have hxy : x.2.outlier_count ≤ y.2.outlier_count := by
        simpa [countLe] using h
      rw [List.sorted_cons]
      refine ⟨?_, ?_⟩
      · intro b hb
        rcases List.mem_cons.mp hb with rfl | hb'
        · exact hxy
        · exact le_trans hxy (hy b hb')
      · rw [List.sorted_cons]
        exact ⟨hy, hys⟩
    case isFalse h =>
      have hyx : y.2.outlier_count ≤ x.2.outlier_count := by
        have := h
        simp only [countLe, decide_eq_true_eq] at this
        omega
      rw [List.sorted_cons]
      refine ⟨?_, ih hys⟩
      intro b hb
      have hmem := (perm_insertLe countLe x ys).mem_iff.mp hb
      rcases List.mem_cons.mp hmem with rfl | hb'
      · exact hyx
      · exact hy b hb'

lemma sorted_isortBy : ∀ l : List (Nat × EntitySummary),
    (isortBy countLe l).Sorted
      (fun a b => a.2.outlier_count ≤ b.2.outlier_count) := by
  intro l
  induction l with
  | nil => simp [isortBy]
  | cons x xs ih => exact sorted_insertLe x _ ih

lemma sorted_sortByCountDesc (d : List (Nat × EntitySummary)) :
    (sortByCountDesc d).Sorted
      (fun a b => b.2.outlier_count ≤ a.2.outlier_count) := by
  unfold sortByCountDesc
  rw [List.Sorted, List.pairwise_reverse]
  exact sorted_isortBy d

lemma get_most_frequent_eq (df : DataFrame) (ms : List ℚ) (threshold : ℚ)
    (hm : df.outlier_metric = some ms) :
    get_most_frequent df threshold =
      some (sortByCountDesc
        (buildSuspectDict threshold [] (df.records.zip ms))) := by
  unfold get_most_frequent
  rw [hm]

/-- Every row of a successful aggregation is the summary built from the
entity's first record, with count `matchCount`. -/
lemma summary_eq_of_mem_out (df : DataFrame) (ms : List ℚ) (threshold : ℚ)
    (out : List (Nat × EntitySummary)) (e : Nat) (s : EntitySummary)
    (hm : df.outlier_metric = some ms)
    (hout : get_most_frequent df threshold = some out)
    (hmem : (e, s) ∈ out) :
    ∃ r, (df.records.zip ms).find? (fun row => row.1.npi == e) = some r ∧
      s = mkSummary r.1 (matchCount threshold e (df.records.zip ms)) := by
  rw [get_most_frequent_eq df ms threshold hm] at hout
  have hout' := (Option.some.inj hout).symm
  subst hout'
  have hmem' := (perm_sortByCountDesc _).mem_iff.mp hmem
  have hnd := nodup_keys_buildSuspectDict threshold (df.records.zip ms) []
    (by simp)
  have hfind := (mem_iff_find?_of_nodup _ hnd e s).mp hmem'
  rw [find?_buildSuspectDict] at hfind
  simp only [List.find?_nil] at hfind
  cases hr : (df.records.zip ms).find? (fun row => row.1.npi == e) with
  | none =>
    rw [hr] at hfind
    simp at hfind
  | some r =>
    rw [hr, Option.map_some'] at hfind
    have hpair := Option.some.inj hfind
    refine ⟨r, rfl, ?_⟩
    have := congrArg Prod.snd hpair
    simpa using this.symm

/-- C1: every entity row of the aggregated report carries an
`outlier_count` exactly equal to the number of that entity's records
whose metric is strictly greater than the supplied threshold. -/
theorem outlier_count_exact (df : DataFrame) (ms : List ℚ) (threshold : ℚ)
    (out : List (Nat × EntitySummary)) (e : Nat) (s : EntitySummary)
    (hm : df.outlier_metric = some ms)
    (hout : get_most_frequent df threshold = some out)
    (hmem : (e, s) ∈ out) :
    s.outlier_count = matchCount threshold e (df.records.zip ms) := by
  obtain ⟨r, hr, hs⟩ :=
    summary_eq_of_mem_out df ms threshold out e s hm hout hmem
  rw [hs]
  rfl

/-- Witness for `outlier_count_exact`: entity 1 with metrics 5 and 20
and threshold 10 is reported with count 1. -/
theorem outlier_count_exact_witness :
    exDF3.outlier_metric = some [5, 20] ∧
      get_most_frequent exDF3 10 = some [(1, mkSummary exR1 1)] ∧
      (mkSummary exR1 1).outlier_count =
        matchCount 10 1 (exDF3.records.zip [5, 20]) := by
  refine ⟨rfl, by decide, ?_⟩
  exact outlier_count_exact exDF3 [5, 20] 10 [(1, mkSummary exR1 1)] 1
    (mkSummary exR1 1) rfl (by decide) (by decide)

/-- C6: the metadata fields of an entity's aggregated row are those of
the entity's first record in input order; later records of the same
entity never overwrite them. -/
theorem metadata_from_first_record (df : DataFrame) (ms : List ℚ)
    (threshold : ℚ) (out : List (Nat × EntitySummary)) (e : Nat)
    (s : EntitySummary) (r : Record × ℚ)
    (hm : df.outlier_metric = some ms)
    (hout : get_most_frequent df threshold = some out)
    (hmem : (e, s) ∈ out)
    (hfirst : (df.records.zip ms).find? (fun row => row.1.npi == e) = some r) :
    s.last_name = r.1.last_name ∧ s.street1 = r.1.street1 ∧
      s.street2 = r.1.street2 ∧ s.zip = r.1.zip ∧ s.state = r.1.state := by
  obtain ⟨q, hq, hs⟩ :=
    summary_eq_of_mem_out df ms threshold out e s hm hout hmem
  rw [hq] at hfirst
  have hqr : q = r := Option.some.inj hfirst
  subst hqr
  rw [hs]
  exact ⟨rfl, rfl, rfl, rfl, rfl⟩

/-- Witness for `metadata_from_first_record` at a two-entity dataframe:
entity 1's row carries the last name of its first record. -/
theorem metadata_from_first_record_witness :
    get_most_frequent exDF7 0 =
        some [(2, mkSummary exR2 0), (1, mkSummary exR1 0)] ∧
      (exDF7.records.zip [0, 0]).find? (fun row => row.1.npi == 1) =
        some (exR1, 0) ∧
      (mkSummary exR1 0).last_name = exR1.last_name := by
  refine ⟨by decide, rfl, ?_⟩
  exact (metadata_from_first_record exDF7 [0, 0] 0
    [(2, mkSummary exR2 0), (1, mkSummary exR1 0)] 1 (mkSummary exR1 0)
    (exR1, 0) rfl (by decide) (by decide) rfl).1

/-- C7 (counterexample): entities first seen in order 1, 2, both ending
with outlier_count 0; the table comes out with entity 2 before entity 1,
so entities with equal counts are not ordered ascending by entity id. -/
theorem ties_not_ascending_by_entity :
    get_most_frequent exDF7 0 =
        some [(2, mkSummary exR2 0), (1, mkSummary exR1 0)] ∧
      (mkSummary exR2 0).outlier_count = (mkSummary exR1 0).outlier_count ∧
      ¬ (2 : Nat) ≤ 1 := by
  exact ⟨by decide, rfl, by decide⟩

/-- C7 (amended): the aggregated table is sorted descending by
`outlier_count`; the sort applies no entity-id tie-break (in the model,
ties come out in reverse first-seen order, deterministically). -/
theorem report_sorted_desc (df : DataFrame) (ms : List ℚ) (threshold : ℚ)
    (out : List (Nat × EntitySummary))
    (hm : df.outlier_metric = some ms)
    (hout : get_most_frequent df threshold = some out) :
    out.Sorted (fun a b => b.2.outlier_count ≤ a.2.outlier_count) := by
  rw [get_most_frequent_eq df ms threshold hm] at hout
  have h := (Option.some.inj hout).symm
  subst h
  exact sorted_sortByCountDesc _

/-- Witness for `report_sorted_desc` at a concrete two-entity table. -/
theorem report_sorted_desc_witness :
    exDF7.outlier_metric = some [0, 0] ∧
      get_most_frequent exDF7 0 =
        some [(2, mkSummary exR2 0), (1, mkSummary exR1 0)] ∧
      List.Sorted (fun a b => b.2.outlier_count ≤ a.2.outlier_count)
        [(2, mkSummary exR2 0), (1, mkSummary exR1 0)] := by
  refine ⟨rfl, by decide, ?_⟩
  exact report_sorted_desc exDF7 [0, 0] 0 _ rfl (by decide)

/-- C10: the aggregated table has exactly one row per distinct entity
of the input — no duplicate entity rows, every input entity present,
and entities none of whose records exceed the threshold appear with
outlier_count 0 rather than being omitted. -/
theorem one_row_per_entity (df : DataFrame) (ms : List ℚ) (threshold : ℚ)
    (out : List (Nat × EntitySummary))
    (hm : df.outlier_metric = some ms)
    (hout : get_most_frequent df threshold = some out) :
    (out.map Prod.fst).Nodup ∧
      (∀ e, (∃ s, (e, s) ∈ out) ↔
        e ∈ (df.records.zip ms).map (fun row => row.1.npi)) ∧
      ∀ e s, (e, s) ∈ out →
        matchCount threshold e (df.records.zip ms) = 0 →
        s.outlier_count = 0 := by
  have hperm : List.Perm out
      (buildSuspectDict threshold [] (df.records.zip ms)) := by
    rw [get_most_frequent_eq df ms threshold hm] at hout
    have h := (Option.some.inj hout).symm
    subst h
    exact perm_sortByCountDesc _
  have hnd := nodup_keys_buildSuspectDict threshold (df.records.zip ms) []
    (by simp)
  refine ⟨?_, ?_, ?_⟩
  · exact (hperm.map Prod.fst).nodup_iff.mpr hnd
  · intro e
    constructor
    · rintro ⟨s, hmem⟩
      obtain ⟨r, hr, _⟩ :=
        summary_eq_of_mem_out df ms threshold out e s hm hout hmem
      have hmemr := List.mem_of_find?_eq_some hr
      have hkey : r.1.npi = e := by
        have h := List.find?_some hr
        simpa using h
      subst hkey
      exact List.mem_map.mpr ⟨r, hmemr, rfl⟩
    · intro he
      obtain ⟨r, hrmem, hrk⟩ := List.mem_map.mp he
      have hsome : ((df.records.zip ms).find?
          (fun row => row.1.npi == e)).isSome := by
        rw [List.find?_isSome]
        exact ⟨r, hrmem, by simp [hrk]⟩
      obtain ⟨q, hq⟩ := Option.isSome_iff_exists.mp hsome
      have hfind := find?_buildSuspectDict threshold (df.records.zip ms) [] e
      simp only [List.find?_nil] at hfind
      rw [hq, Option.map_some'] at hfind
      have hmemd := List.mem_of_find?_eq_some hfind
      exact ⟨_, hperm.mem_iff.mpr hmemd⟩
  · intro e s hmem hmc
    obtain ⟨r, hr, hs⟩ :=
      summary_eq_of_mem_out df ms threshold out e s hm hout hmem
    rw [hs, hmc]
    rfl

/-- Witness for `one_row_per_entity`: with threshold 0 and metrics 0, 0
neither record exceeds, yet both entities appear, once each, with
count 0. -/
theorem one_row_per_entity_witness :
    get_most_frequent exDF7 0 =
        some [(2, mkSummary exR2 0), (1, mkSummary exR1 0)] ∧
      (([(2, mkSummary exR2 0), (1, mkSummary exR1 0)].map Prod.fst).Nodup ∧
        (∀ e, (∃ s, (e, s) ∈ [(2, mkSummary exR2 0), (1, mkSummary exR1 0)]) ↔
          e ∈ (exDF7.records.zip [0, 0]).map (fun row => row.1.npi)) ∧
        ∀ e s, (e, s) ∈ [(2, mkSummary exR2 0), (1, mkSummary exR1 0)] →
          matchCount 0 e (exDF7.records.zip [0, 0]) = 0 →
          s.outlier_count = 0) := by
  refine ⟨by decide, ?_⟩
  exact one_row_per_entity exDF7 [0, 0] 0 _ rfl (by decide)

end Fraudhacker
